import Mathlib

/-!
Verification of the download-validation and auto-repair subsystem of
`software_manager_v3.py` (classes `FileValidator`, `AutoCorrector`,
`SoftwareDownloader`), as a shallow embedding in Lean 4.

Files on disk are modelled as `Option (List Nat)` (absent, or a byte list);
the hex-digest function of `hashlib` is a parameter `hashFn : List Nat → String`
(the code only compares its output case-insensitively, so its internals are
irrelevant to every property below).  The network is a function from the index
of the HTTP GET to its outcome.  All message strings are taken verbatim from
the source.
-/

/-- Python `str.lower()` as used on hex digests and hash strings
(character-wise lowercasing; the strings compared by the code are ASCII hex
digests, on which this is exact). -/
def pyLower (s : String) : String := String.mk (s.data.map Char.toLower)

/-- Python truthiness of an optional string field obtained with `dict.get`:
`None` and the empty string are falsy. -/
def optStrTruthy : Option String → Bool
  | some s => s != ""
  | none => false

/-- Message returned by `validate_file_integrity` on a size mismatch
(`"文件大小不匹配: 期望 {expected_size}, 实际 {actual_size}"`). -/
def sizeMismatchMsg (expected actual : Nat) : String :=
  "文件大小不匹配: 期望 " ++ toString expected ++ ", 实际 " ++ toString actual

/-- Message returned by `validate_file_integrity` on a hash mismatch
(`"文件哈希不匹配: 期望 {expected_hash}, 实际 {actual_hash}"`). -/
def hashMismatchMsg (expected actual : String) : String :=
  "文件哈希不匹配: 期望 " ++ expected ++ ", 实际 " ++ actual

/-- The hash-comparison tail of `FileValidator.validate_file_integrity`:
`if expected_hash:` (truthy), compare `actual_hash.lower()` with
`expected_hash.lower()`; then the final 1KB readability probe (which on a
pure byte-list file always succeeds) and `return True, "文件完整"`. -/
def validateHashPart (hashFn : List Nat → String) (content : List Nat)
    (expected_hash : Option String) : Bool × String :=
  match expected_hash with
  | some eh =>
    if eh = "" then (true, "文件完整")
    else
      let ah := hashFn content
      if pyLower ah ≠ pyLower eh then (false, hashMismatchMsg eh ah)
      else (true, "文件完整")
  | none => (true, "文件完整")

/-- `FileValidator.validate_file_integrity(file_path, expected_hash, expected_size)`.
A missing file returns `(False, "文件不存在")`; then the size check
(`file_path.stat().st_size != expected_size`), then the hash check, then the
1KB readability probe.  The file on disk is `Option (List Nat)`; its
`st_size` is the length of the byte list. -/
def validate_file_integrity (hashFn : List Nat → String)
    (file : Option (List Nat)) (expected_hash : Option String)
    (expected_size : Option Nat) : Bool × String :=
  match file with
  | none => (false, "文件不存在")
  | some content =>
    match expected_size with
    | some esz =>
      if content.length ≠ esz then (false, sizeMismatchMsg esz content.length)
      else validateHashPart hashFn content expected_hash
    | none => validateHashPart hashFn content expected_hash

/-- The size check passes: either no expected size was provided, or the
actual length equals it. -/
def sizeOk (content : List Nat) (expected_size : Option Nat) : Prop :=
  ∀ esz, expected_size = some esz → content.length = esz

/-- C1: if the file exists, a non-empty expected hash is provided and the hex
digest of the content differs from it case-insensitively, then
`validate_file_integrity` returns not-ok, and its message names either the
hash mismatch or (when an expected size was also provided and differs) the
size mismatch — for every choice of expected size. -/
theorem validate_hash_mismatch_not_ok (hashFn : List Nat → String)
    (content : List Nat) (eh : String) (es : Option Nat)
    (hne : eh ≠ "") (hmis : pyLower (hashFn content) ≠ pyLower eh) :
    (validate_file_integrity hashFn (some content) (some eh) es).1 = false ∧
      ((validate_file_integrity hashFn (some content) (some eh) es).2 =
          hashMismatchMsg eh (hashFn content) ∨
        ∃ esz, es = some esz ∧ content.length ≠ esz ∧
          (validate_file_integrity hashFn (some content) (some eh) es).2 =
            sizeMismatchMsg esz content.length) := by
  cases es with
  | none =>
    have hv : validate_file_integrity hashFn (some content) (some eh) none =
        (false, hashMismatchMsg eh (hashFn content)) := by
      simp only [validate_file_integrity, validateHashPart, if_neg hne,
        if_pos hmis]
    rw [hv]
    exact ⟨rfl, Or.inl rfl⟩
  | some esz =>
    by_cases hsz : content.length = esz
    · have hv : validate_file_integrity hashFn (some content) (some eh)
          (some esz) = (false, hashMismatchMsg eh (hashFn content)) := by
        simp only [validate_file_integrity, validateHashPart, if_neg hne,
          if_pos hmis, hsz]
        rw [if_neg fun h => h rfl]
      rw [hv]
      exact ⟨rfl, Or.inl rfl⟩
    · have hv : validate_file_integrity hashFn (some content) (some eh)
          (some esz) = (false, sizeMismatchMsg esz content.length) := by
        simp only [validate_file_integrity]
        rw [if_pos hsz]
      rw [hv]
      exact ⟨rfl, Or.inr ⟨esz, rfl, hsz, rfl⟩⟩

/-- Witness for C1 at a concrete input: content `[0]`, digest `"aa"`,
expected hash `"bb"`, no expected size. -/
theorem validate_hash_mismatch_not_ok_witness :
    (validate_file_integrity (fun _ => "aa") (some [0]) (some "bb") none).1
      = false :=
  (validate_hash_mismatch_not_ok (fun _ => "aa") [0] "bb" none
    (by decide) (by decide)).1

/-- C5: full behaviour of `validate_file_integrity`: it is a total function
(always returns an `(ok, reason)` pair, never raises); a missing path gives
not-ok `"文件不存在"`; a provided size is checked first, then a provided
(non-empty) hash; when both checks pass (or are absent) the 1KB read
succeeds on a pure byte file and the result is ok `"文件完整"`. -/
theorem validate_total_characterization (hashFn : List Nat → String)
    (file : Option (List Nat)) (eh : Option String) (es : Option Nat) :
    (file = none →
        validate_file_integrity hashFn file eh es = (false, "文件不存在")) ∧
    (∀ c esz, file = some c → es = some esz → c.length ≠ esz →
        validate_file_integrity hashFn file eh es =
          (false, sizeMismatchMsg esz c.length)) ∧
    (∀ c, file = some c → sizeOk c es → optStrTruthy eh = false →
        validate_file_integrity hashFn file eh es = (true, "文件完整")) ∧
    (∀ c ehs, file = some c → sizeOk c es → eh = some ehs → ehs ≠ "" →
        pyLower (hashFn c) = pyLower ehs →
        validate_file_integrity hashFn file eh es = (true, "文件完整")) ∧
    (∀ c ehs, file = some c → sizeOk c es → eh = some ehs → ehs ≠ "" →
        pyLower (hashFn c) ≠ pyLower ehs →
        validate_file_integrity hashFn file eh es =
          (false, hashMismatchMsg ehs (hashFn c))) ∧
    (∃ ok reason, validate_file_integrity hashFn file eh es = (ok, reason)) := by
  refine ⟨?_, ?_, ?_, ?_, ?_, ?_⟩
  · intro h; subst h; rfl
  · intro c esz hc hes hne; subst hc; subst hes
    simp only [validate_file_integrity]
    rw [if_pos hne]
  · intro c hc hsz htr; subst hc
    have hpart : validateHashPart hashFn c eh = (true, "文件完整") := by
      cases eh with
      | none => rfl
      | some s =>
        have hs : s = "" := by simpa [optStrTruthy] using htr
        subst hs
        rfl
    cases es with
    | none => exact hpart
    | some esz =>
      have hlen : c.length = esz := hsz esz rfl
      simp only [validate_file_integrity]
      rw [if_neg fun h => h hlen]
      exact hpart
  · intro c ehs hc hsz heh hne hmatch; subst hc; subst heh
    have hpart : validateHashPart hashFn c (some ehs) = (true, "文件完整") := by
      simp only [validateHashPart, if_neg hne]
      rw [if_neg fun h => h hmatch]
    cases es with
    | none => exact hpart
    | some esz =>
      have hlen : c.length = esz := hsz esz rfl
      simp only [validate_file_integrity]
      rw [if_neg fun h => h hlen]
      exact hpart
  · intro c ehs hc hsz heh hne hmis; subst hc; subst heh
    have hpart : validateHashPart hashFn c (some ehs) =
        (false, hashMismatchMsg ehs (hashFn c)) := by
      simp only [validateHashPart, if_neg hne]
      rw [if_pos hmis]
    cases es with
    | none => exact hpart
    | some esz =>
      have hlen : c.length = esz := hsz esz rfl
      simp only [validate_file_integrity]
      rw [if_neg fun h => h hlen]
      exact hpart
  · exact ⟨_, _, rfl⟩

/-- Witness for C5 at a concrete input: the missing-file branch with no
expected hash or size. -/
theorem validate_total_characterization_witness :
    validate_file_integrity (fun _ => "aa") none none none =
      (false, "文件不存在") :=
  (validate_total_characterization (fun _ => "aa") none none none).1 rfl

/-- Python substring test `needle in hay` on character lists. -/
def listContainsSub (needle : List Char) : List Char → Bool
  | [] => needle.isEmpty
  | c :: t => needle.isPrefixOf (c :: t) || listContainsSub needle t

/-- Python substring test `needle in hay` on strings. -/
def strContainsSub (hay needle : String) : Bool :=
  listContainsSub needle.data hay.data

/-- Characters CPython's `urlsplit` allows inside a URL scheme. -/
def schemeChar (c : Char) : Bool :=
  c.isAlphanum || c = '+' || c = '-' || c = '.'

/-- Scheme stripping of CPython's `urlsplit`: when a `:` occurs after a
non-empty run of scheme characters whose first character is a letter,
everything up to and including the `:` is removed. -/
def dropScheme (l : List Char) : List Char :=
  let pre := l.takeWhile (fun c => c != ':')
  if pre.length < l.length && !pre.isEmpty && (pre.headD ' ').isAlpha &&
      pre.all schemeChar
  then l.drop (pre.length + 1)
  else l

/-- Netloc stripping of CPython's `urlsplit`: after a leading `//`, the
authority runs up to (excluding) the first `/`, `?` or `#`. -/
def dropNetloc : List Char → List Char
  | '/' :: '/' :: rest =>
    rest.dropWhile (fun c => c != '/' && c != '?' && c != '#')
  | l => l

/-- The part of a path after its last `/` (POSIX `os.path.basename`;
URL paths produced here use `/` separators only). -/
def lastSegment (l : List Char) : List Char :=
  (l.reverse.takeWhile (fun c => c != '/')).reverse

/-- Params stripping of CPython's `urlparse`: a `;suffix` of the last path
segment is removed from the `path` attribute. -/
def dropParams (l : List Char) : List Char :=
  let seg := lastSegment l
  l.take (l.length - seg.length) ++ seg.takeWhile (fun c => c != ';')

/-- `urllib.parse.urlparse(url).path`: strip the scheme, the `//`-introduced
authority, everything from the first `#` or `?`, and the params of the last
segment. -/
def urlparse_path (url : String) : String :=
  let afterNetloc := dropNetloc (dropScheme url.data)
  String.mk (dropParams (afterNetloc.takeWhile (fun c => c != '#' && c != '?')))

/-- `os.path.basename` on the URL path. -/
def pathBasename (p : String) : String :=
  String.mk (lastSegment p.data)

/-- The character class kept by the sanitizer in `_generate_filename`:
`c.isalnum() or c in '._- '` (alphanumeric modelled on ASCII, which covers
every name the theorems below evaluate). -/
def pySafeChar (c : Char) : Bool :=
  c.isAlphanum || c = '.' || c = '_' || c = '-' || c = ' '

/-- `''.join(c if c.isalnum() or c in '._- ' else '_' for c in software_name)`:
every character outside the safe class becomes an underscore. -/
def sanitizeName (s : String) : String :=
  String.mk (s.data.map (fun c => if pySafeChar c then c else '_'))

/-- The fixed extension allow-list `common_extensions` of
`_generate_filename`. -/
def common_extensions : List String :=
  [".exe", ".msi", ".zip", ".rar", ".7z", ".dmg", ".pkg", ".deb", ".rpm"]

/-- The `for ext in common_extensions: if ext in url_path.lower(): break`
loop: the first allow-listed extension occurring as a substring of the
lowercased URL path, if any. -/
def findCommonExt (pathLower : String) : Option String :=
  common_extensions.find? (fun ext => strContainsSub pathLower ext)

/-- A software record as read from the catalog JSON: the five `dict.get`
fields used by the download subsystem (`None` when absent). -/
structure SoftwareInfo where
  filename : Option String
  name : Option String
  url : Option String
  hash : Option String
  size : Option Nat

/-- The `not filename` branch of `AutoCorrector._generate_filename`:
derive a name from `name`/`url` (defaults `'unknown'` and `''`). -/
def generate_from_name_url (info : SoftwareInfo) : String :=
  let software_name := info.name.getD "unknown"
  let url := info.url.getD ""
  if url ≠ "" ∧ url ≠ "builtin" then
    let url_path := urlparse_path url
    let basename := pathBasename url_path
    if basename ≠ "" ∧ basename.data.contains '.' then basename
    else
      let safe_name := sanitizeName software_name
      match findCommonExt (pyLower url_path) with
      | some ext => safe_name ++ ext
      | none => safe_name ++ ".exe"
  else
    sanitizeName software_name ++ ".exe"

/-- `AutoCorrector._generate_filename(software_info)`: an explicit truthy
`filename` field is returned verbatim; otherwise the name is derived from
the record's `name` and `url`. -/
def generate_filename (info : SoftwareInfo) : String :=
  match info.filename with
  | some f => if f = "" then generate_from_name_url info else f
  | none => generate_from_name_url info

example : generate_filename ⟨none, some "App",
    some "http://example.com/download/setup.bin", none, none⟩ =
    "setup.bin" := by decide

example : generate_filename ⟨none, some "My App!",
    some "http://example.com/download/", none, none⟩ =
    "My App_.exe" := by decide

example : generate_filename ⟨none, some "A",
    some "http://x.com/app.zip/latest", none, none⟩ = "A.zip" := by decide

example : generate_filename ⟨none, some "X", some "builtin", none, none⟩ =
    "X.exe" := by decide

example : urlparse_path "http://a.com/x;p?q#f" = "/x" := by decide

example : generate_filename ⟨none, some "F",
    some "https://example.com/f.EXE?x=1", none, none⟩ = "f.EXE" := by decide

example : urlparse_path "1http://a/b.c" = "1http://a/b.c" := by decide

example : urlparse_path "a:b/c.d" = "b/c.d" := by decide

/-- Python `str.endswith` on strings. -/
def strEndsWith (s suffixStr : String) : Bool :=
  suffixStr.data.reverse.isPrefixOf s.data.reverse

/-- The filename computation exactly as claim C6 words it: the explicit
`filename` field if present; else the URL path basename when it has a
recognizable (allow-listed) extension; else the software name with
non-alphanumeric characters stripped, with an allow-list extension guessed
from the URL path appended, defaulting to `.exe`. -/
def generate_filename_claimed (info : SoftwareInfo) : String :=
  match info.filename with
  | some f => f
  | none =>
    let url_path := urlparse_path (info.url.getD "")
    let basename := pathBasename url_path
    if common_extensions.any (fun e => strEndsWith basename e) then basename
    else
      let stripped :=
        String.mk ((info.name.getD "unknown").data.filter Char.isAlphanum)
      match findCommonExt (pyLower url_path) with
      | some ext => stripped ++ ext
      | none => stripped ++ ".exe"

/-- A record whose URL basename `setup.bin` has a dot but no allow-listed
extension: the code keeps `setup.bin`, the claimed rule falls back to
`App.exe`. -/
def c6Example : SoftwareInfo :=
  ⟨none, some "App", some "http://example.com/download/setup.bin", none, none⟩

/-- C6 counterexample: `_generate_filename` keeps any basename containing a
dot (here `setup.bin`, whose `.bin` is outside the allow-list), while the
claimed computation would fall back to the stripped name with a guessed
extension (`App.exe`), so the claim as stated fails at this record. -/
theorem generate_filename_claim_false :
    generate_filename c6Example = "setup.bin" ∧
      generate_filename_claimed c6Example = "App.exe" ∧
      generate_filename c6Example ≠ generate_filename_claimed c6Example := by
  refine ⟨by decide, by decide, by decide⟩

/-- The `not filename` branch of the amended claim C6, as a standalone
computation on the record. -/
def amendedDerive (info : SoftwareInfo) : String :=
  let nm := info.name.getD "unknown"
  let url := info.url.getD ""
  if url = "" ∨ url = "builtin" then sanitizeName nm ++ ".exe"
  else
    let p := urlparse_path url
    let b := pathBasename p
    if b ≠ "" ∧ b.data.contains '.' then b
    else sanitizeName nm ++ (findCommonExt (pyLower p)).getD ".exe"

/-- The amended claim C6 as a computation: explicit non-empty `filename`
verbatim; else, for a non-empty non-`builtin` URL whose path basename is
non-empty and contains a dot, that basename; else the sanitized software
name (characters outside alphanumerics and `._- ` replaced by `_`) with the
first allow-list extension occurring in the lowercased URL path appended,
defaulting to `.exe`. -/
def generate_filename_amended (info : SoftwareInfo) : String :=
  if optStrTruthy info.filename then info.filename.getD ""
  else amendedDerive info

theorem generate_from_name_url_eq_amendedDerive (info : SoftwareInfo) :
    generate_from_name_url info = amendedDerive info := by
  by_cases hu : info.url.getD "" = "" ∨ info.url.getD "" = "builtin"
  · have hu2 : ¬(info.url.getD "" ≠ "" ∧ info.url.getD "" ≠ "builtin") := by
      tauto
    simp only [generate_from_name_url, amendedDerive, if_neg hu2, if_pos hu]
  · have hu2 : info.url.getD "" ≠ "" ∧ info.url.getD "" ≠ "builtin" := by
      tauto
    simp only [generate_from_name_url, amendedDerive, if_pos hu2, if_neg hu]
    by_cases hb : pathBasename (urlparse_path (info.url.getD "")) ≠ "" ∧
        (pathBasename (urlparse_path (info.url.getD ""))).data.contains '.'
          = true
    · simp only [if_pos hb]
    · simp only [if_neg hb]
      cases hfc : findCommonExt (pyLower (urlparse_path (info.url.getD "")))
        with
      | some e => simp [hfc]
      | none => simp [hfc]

theorem generate_filename_of_falsy (info : SoftwareInfo)
    (hfn : optStrTruthy info.filename = false) :
    generate_filename info = generate_from_name_url info := by
  cases hf : info.filename with
  | none => simp [generate_filename, hf]
  | some f =>
    have hfe : f = "" := by simpa [optStrTruthy, hf] using hfn
    simp [generate_filename, hf, hfe]

/-- C6 amended: `_generate_filename` returns the explicit `filename` field
when truthy (non-`None`, non-empty); else, for a non-empty non-`builtin`
URL whose path basename is non-empty and contains a dot, that basename;
else the sanitized software name (characters outside alphanumerics and
`._- ` replaced by underscores) with the first allow-list extension found
as a substring of the lowercased URL path appended, defaulting to `.exe`. -/
theorem generate_filename_eq_amended (info : SoftwareInfo) :
    generate_filename info = generate_filename_amended info := by
  cases hf : info.filename with
  | none =>
    rw [generate_filename_of_falsy info (by simp [optStrTruthy, hf]),
      generate_from_name_url_eq_amendedDerive]
    simp [generate_filename_amended, optStrTruthy, hf]
  | some f =>
    by_cases hfe : f = ""
    · subst hfe
      rw [generate_filename_of_falsy info (by simp [optStrTruthy, hf]),
        generate_from_name_url_eq_amendedDerive]
      simp [generate_filename_amended, optStrTruthy, hf]
    · simp [generate_filename, generate_filename_amended, optStrTruthy, hf,
        hfe]

/-- C7: whenever the explicit `filename` field is falsy and the URL path
basename is empty or dot-free, the generated filename is some stem followed
by an extension from the allow-list (`.exe` itself is in the allow-list). -/
theorem derived_filename_has_allowlisted_extension (info : SoftwareInfo)
    (hfn : optStrTruthy info.filename = false)
    (hb : pathBasename (urlparse_path (info.url.getD "")) = "" ∨
      (pathBasename (urlparse_path (info.url.getD ""))).data.contains '.'
        = false) :
    ∃ ext stem, ext ∈ common_extensions ∧
      generate_filename info = stem ++ ext := by
  rw [generate_filename_of_falsy info hfn]
  by_cases hu : info.url.getD "" ≠ "" ∧ info.url.getD "" ≠ "builtin"
  · have hb2 : ¬(pathBasename (urlparse_path (info.url.getD "")) ≠ "" ∧
        (pathBasename (urlparse_path (info.url.getD ""))).data.contains '.'
          = true) := by
      rcases hb with hb | hb
      · exact fun hcon => hcon.1 hb
      · exact fun hcon => by rw [hb] at hcon; exact Bool.false_ne_true hcon.2
    simp only [generate_from_name_url, if_pos hu, if_neg hb2]
    cases hfc : findCommonExt (pyLower (urlparse_path (info.url.getD "")))
      with
    | some e =>
      refine ⟨e, sanitizeName (info.name.getD "unknown"), ?_, by simp [hfc]⟩
      exact List.mem_of_find?_eq_some hfc
    | none =>
      exact ⟨".exe", sanitizeName (info.name.getD "unknown"), by decide,
        by simp [hfc]⟩
  · simp only [generate_from_name_url, if_neg hu]
    exact ⟨".exe", sanitizeName (info.name.getD "unknown"), by decide, rfl⟩

/-- Witness for C7 at a concrete record: no explicit filename, URL
`http://x.com/download` whose basename has no dot. -/
theorem derived_filename_has_allowlisted_extension_witness :
    ∃ ext stem, ext ∈ common_extensions ∧
      generate_filename
          ⟨none, some "Tool", some "http://x.com/download", none, none⟩ =
        stem ++ ext :=
  derived_filename_has_allowlisted_extension
    ⟨none, some "Tool", some "http://x.com/download", none, none⟩
    (by decide) (by decide)

/-- Outcome of one `AutoCorrector._download_file` call, i.e. of one HTTP GET.
`ok data` is a completed streamed write returning `(True, "下载成功")`;
`err msg written` is any exception (returning `(False, str(e))`), with
`written` the file state it leaves behind — `none` when the request failed
before the file was opened, `some partialData` when the exception hit
mid-stream after the `'wb'` open truncated and partially wrote the file. -/
inductive DownloadOutcome where
  | ok (data : List Nat)
  | err (msg : String) (written : Option (List Nat))

/-- The `if file_path.exists(): is_valid, ... if is_valid:` test at the top
of each retry attempt: an absent file is not re-validated, a present file is
accepted iff `validate_file_integrity` accepts it against the record's
optional `hash` and `size`. -/
def existingFileValid (hashFn : List Nat → String) (info : SoftwareInfo) :
    Option (List Nat) → Bool
  | some content =>
    (validate_file_integrity hashFn (some content) info.hash info.size).1
  | none => false

/-- The `for attempt in range(max_retries)` loop of
`AutoCorrector.auto_correct_download`, with `fuel` the remaining attempts,
`file` the target file on disk and `gets` the number of HTTP GETs issued so
far.  Per attempt: a present valid file returns `(True, "文件完整")` at
once; a present invalid file is unlinked (`file_path.unlink`); then
`_download_file` issues one GET (`net gets`), whose written data replaces
the (now absent) file; a download that validates returns
`(True, "纠错成功")`, anything else retries after backoff.  Returns the
early result (if any), the final file state, and the GET count. -/
def acd_loop (hashFn : List Nat → String) (info : SoftwareInfo)
    (net : Nat → DownloadOutcome) :
    Nat → Option (List Nat) → Nat →
      Option (Bool × String) × Option (List Nat) × Nat
  | 0, file, gets => (none, file, gets)
  | fuel + 1, file, gets =>
    if existingFileValid hashFn info file then
      (some (true, "文件完整"), file, gets)
    else
      match net gets with
      | DownloadOutcome.ok data =>
        if (validate_file_integrity hashFn (some data) info.hash
            info.size).1 then
          (some (true, "纠错成功"), some data, gets + 1)
        else acd_loop hashFn info net fuel (some data) (gets + 1)
      | DownloadOutcome.err _ written =>
        acd_loop hashFn info net fuel written (gets + 1)

/-- The terminal message of `auto_correct_download`
(`"经过 {max_retries} 次尝试后仍然失败"`). -/
def exhaustedMsg (max_retries : Nat) : String :=
  "经过 " ++ toString max_retries ++ " 次尝试后仍然失败"

/-- `AutoCorrector.auto_correct_download(software_info, download_path,
max_retries)` on the target file: runs the retry loop and, when it exhausts
its attempts, returns `(False, exhaustedMsg)`.  Also exposes the final file
state and the number of HTTP GETs issued. -/
def auto_correct_download (hashFn : List Nat → String) (info : SoftwareInfo)
    (net : Nat → DownloadOutcome) (file0 : Option (List Nat))
    (max_retries : Nat) : (Bool × String) × Option (List Nat) × Nat :=
  match acd_loop hashFn info net max_retries file0 0 with
  | (some r, f, g) => (r, f, g)
  | (none, f, g) => ((false, exhaustedMsg max_retries), f, g)

theorem acd_loop_gets_le (hashFn : List Nat → String) (info : SoftwareInfo)
    (net : Nat → DownloadOutcome) :
    ∀ fuel file gets,
      (acd_loop hashFn info net fuel file gets).2.2 ≤ gets + fuel := by
  intro fuel
  induction fuel with
  | zero => intro file gets; simp [acd_loop]
  | succ n ih =>
    intro file gets
    simp only [acd_loop]
    cases hv : existingFileValid hashFn info file with
    | true => simp
    | false =>
      simp only [Bool.false_eq_true, if_false]
      cases hnet : net gets with
      | ok data =>
        dsimp only
        cases hd : (validate_file_integrity hashFn (some data) info.hash
            info.size).1 with
        | true => simp [hd]
        | false =>
          simp only [hd, Bool.false_eq_true, if_false]
          have := ih (some data) (gets + 1)
          omega
      | err m w =>
        dsimp only
        have := ih w (gets + 1)
        omega

/-- C2: `auto_correct_download` issues at most `max_retries` HTTP GETs
before returning, for every record, initial file state and network
behaviour. -/
theorem auto_correct_download_bounded_gets (hashFn : List Nat → String)
    (info : SoftwareInfo) (net : Nat → DownloadOutcome)
    (file0 : Option (List Nat)) (max_retries : Nat) :
    (auto_correct_download hashFn info net file0 max_retries).2.2 ≤
      max_retries := by
  have h := acd_loop_gets_le hashFn info net max_retries file0 0
  unfold auto_correct_download
  cases hres : acd_loop hashFn info net max_retries file0 0 with
  | mk a bg =>
    rw [hres] at h
    cases a <;> simpa using h

theorem acd_loop_success_file_valid (hashFn : List Nat → String)
    (info : SoftwareInfo) (net : Nat → DownloadOutcome) :
    ∀ fuel file gets r f g,
      acd_loop hashFn info net fuel file gets = (some r, f, g) →
      existingFileValid hashFn info f = true := by
  intro fuel
  induction fuel with
  | zero => intro file gets r f g h; simp [acd_loop] at h
  | succ n ih =>
    intro file gets r f g h
    simp only [acd_loop] at h
    cases hv : existingFileValid hashFn info file with
    | true =>
      rw [hv, if_pos rfl] at h
      simp only [Prod.mk.injEq] at h
      obtain ⟨h1, h2, h3⟩ := h
      rw [← h2]
      exact hv
    | false =>
      rw [hv, if_neg Bool.false_ne_true] at h
      cases hnet : net gets with
      | ok data =>
        rw [hnet] at h
        dsimp only at h
        cases hd : (validate_file_integrity hashFn (some data) info.hash
            info.size).1 with
        | true =>
          rw [hd, if_pos rfl] at h
          simp only [Prod.mk.injEq] at h
          obtain ⟨h1, h2, h3⟩ := h
          rw [← h2]
          simpa [existingFileValid] using hd
        | false =>
          rw [hd, if_neg Bool.false_ne_true] at h
          exact ih _ _ _ _ _ h
      | err m w =>
        rw [hnet] at h
        dsimp only at h
        exact ih _ _ _ _ _ h

/-- C3: if the initial target file is present but invalid and
`auto_correct_download` returns success, the file finally on disk is not the
stale invalid one: it differs from the initial content and itself passes
validation (the invalid file was unlinked before any re-download, so success
can only come from a validated re-downloaded file). -/
theorem stale_invalid_file_never_accepted (hashFn : List Nat → String)
    (info : SoftwareInfo) (net : Nat → DownloadOutcome) (c0 : List Nat)
    (max_retries : Nat)
    (hinv : (validate_file_integrity hashFn (some c0) info.hash
      info.size).1 = false)
    (hsucc : (auto_correct_download hashFn info net (some c0)
      max_retries).1.1 = true) :
    (auto_correct_download hashFn info net (some c0) max_retries).2.1 ≠
        some c0 ∧
      existingFileValid hashFn info
        (auto_correct_download hashFn info net (some c0) max_retries).2.1
        = true := by
  unfold auto_correct_download at hsucc ⊢
  cases hres : acd_loop hashFn info net max_retries (some c0) 0 with
  | mk a bg =>
    cases a with
    | none =>
      rw [hres] at hsucc
      simp at hsucc
    | some r =>
      obtain ⟨f, g⟩ := bg
      have hvalid := acd_loop_success_file_valid hashFn info net
        max_retries (some c0) 0 r f g hres
      dsimp only
      refine ⟨?_, hvalid⟩
      intro hf
      rw [hf] at hvalid
      simp only [existingFileValid] at hvalid
      rw [hvalid] at hinv
      simp at hinv

/-- A concrete digest function for the witnesses: content `[1, 2]` hashes to
`"good"`, anything else to `"bad"`. -/
def demoHashFn : List Nat → String :=
  fun l => if l = [1, 2] then "good" else "bad"

/-- A concrete record expecting hash `"good"`. -/
def demoInfo : SoftwareInfo :=
  ⟨none, some "A", some "http://x.com/a.exe", some "good", none⟩

/-- A network whose every GET delivers the content `[1, 2]`. -/
def demoNet : Nat → DownloadOutcome :=
  fun _ => DownloadOutcome.ok [1, 2]

/-- A network whose every GET raises before the file is opened. -/
def demoErrNet : Nat → DownloadOutcome :=
  fun _ => DownloadOutcome.err "boom" none

/-- Witness for C3 at a concrete run: initial invalid file `[9]`, one retry
downloading valid content `[1, 2]`. -/
theorem stale_invalid_file_never_accepted_witness :
    (auto_correct_download demoHashFn demoInfo demoNet (some [9]) 1).2.1 ≠
        some [9] ∧
      existingFileValid demoHashFn demoInfo
        (auto_correct_download demoHashFn demoInfo demoNet (some [9]) 1).2.1
        = true :=
  stale_invalid_file_never_accepted demoHashFn demoInfo demoNet [9] 1
    (by decide) (by decide)

/-- C4: when at least one attempt runs and the target file already exists
and validates against the record's optional hash and size,
`auto_correct_download` returns `(True, "文件完整")` with the file untouched
and zero HTTP GETs issued. -/
theorem valid_existing_file_immediate_success (hashFn : List Nat → String)
    (info : SoftwareInfo) (net : Nat → DownloadOutcome) (c : List Nat)
    (max_retries : Nat) (hpos : 0 < max_retries)
    (hvalid : (validate_file_integrity hashFn (some c) info.hash
      info.size).1 = true) :
    auto_correct_download hashFn info net (some c) max_retries =
      ((true, "文件完整"), some c, 0) := by
  obtain ⟨k, rfl⟩ : ∃ k, max_retries = k + 1 := ⟨max_retries - 1, by omega⟩
  have hev : existingFileValid hashFn info (some c) = true := by
    simpa [existingFileValid] using hvalid
  unfold auto_correct_download
  simp [acd_loop, hev]

/-- Witness for C4 at a concrete run: valid file `[1, 2]` already present,
a network that would fail every GET, three allowed retries. -/
theorem valid_existing_file_immediate_success_witness :
    auto_correct_download demoHashFn demoInfo demoErrNet (some [1, 2]) 3 =
      ((true, "文件完整"), some [1, 2], 0) :=
  valid_existing_file_immediate_success demoHashFn demoInfo demoErrNet
    [1, 2] 3 (by decide) (by decide)

/-- `software_name not in software_data` on the catalog, modelled as an
association list preserving iteration order. -/
def lookupSoftware (software_data : List (String × SoftwareInfo))
    (name : String) : Option SoftwareInfo :=
  (software_data.find? (fun p => p.1 == name)).map Prod.snd

/-- The body of the `for software_name in software_list` loop of
`SoftwareDownloader.download_software`: a name absent from the catalog gets
`(False, "软件信息不存在")`; otherwise `auto_correct_download` runs with its
default `max_retries = 3` on that record's file and network (supplied by
`env`). -/
def downloadEntry (hashFn : List Nat → String)
    (software_data : List (String × SoftwareInfo))
    (env : String → Option (List Nat) × (Nat → DownloadOutcome))
    (name : String) : String × (Bool × String) :=
  match lookupSoftware software_data name with
  | none => (name, (false, "软件信息不存在"))
  | some info =>
    (name, (auto_correct_download hashFn info (env name).2 (env name).1 3).1)

/-- `SoftwareDownloader.download_software(software_list, download_path,
software_data)`: when `correct_path_issues` reports the path unusable
(`pathResult.1 = false`), every requested name maps to that failure;
otherwise each record is processed in turn via `auto_correct_download` and
its `(ok, message)` pair recorded.  The result dict is modelled as the list
of `(name, result)` pairs in iteration order. -/
def download_software (hashFn : List Nat → String)
    (software_list : List String)
    (software_data : List (String × SoftwareInfo))
    (pathResult : Bool × String)
    (env : String → Option (List Nat) × (Nat → DownloadOutcome)) :
    List (String × (Bool × String)) :=
  if pathResult.1 = false then
    software_list.map (fun s => (s, (false, pathResult.2)))
  else
    software_list.map (downloadEntry hashFn software_data env)

theorem downloadEntry_fst (hashFn : List Nat → String)
    (software_data : List (String × SoftwareInfo))
    (env : String → Option (List Nat) × (Nat → DownloadOutcome))
    (name : String) :
    (downloadEntry hashFn software_data env name).1 = name := by
  cases hl : lookupSoftware software_data name <;> simp [downloadEntry, hl]

/-- C9: `download_software` returns one `(ok, message)` result per requested
name, in order, for every batch, catalog, path state and network behaviour:
no per-record failure (invalid download, exhausted retries, or a name
absent from the catalog) removes later entries or aborts the batch. -/
theorem download_software_covers_all (hashFn : List Nat → String)
    (software_list : List String)
    (software_data : List (String × SoftwareInfo))
    (pathResult : Bool × String)
    (env : String → Option (List Nat) × (Nat → DownloadOutcome)) :
    (download_software hashFn software_list software_data pathResult
        env).map Prod.fst = software_list := by
  unfold download_software
  by_cases hp : pathResult.1 = false
  · rw [if_pos hp]
    induction software_list with
    | nil => rfl
    | cons a t ih => simpa using ih
  · rw [if_neg hp]
    induction software_list with
    | nil => rfl
    | cons a t ih => simp [downloadEntry_fst, ih]

/-- C8: `_generate_filename` is a pure function of the record: equal records
give equal filenames. -/
theorem generate_filename_deterministic (i1 i2 : SoftwareInfo)
    (h : i1 = i2) : generate_filename i1 = generate_filename i2 := by
  rw [h]

/-- Witness for C8 at a concrete record. -/
theorem generate_filename_deterministic_witness :
    generate_filename ⟨none, some "App", some "builtin", none, none⟩ =
      generate_filename ⟨none, some "App", some "builtin", none, none⟩ :=
  generate_filename_deterministic
    ⟨none, some "App", some "builtin", none, none⟩
    ⟨none, some "App", some "builtin", none, none⟩ rfl

/-- C10: a truthy explicit `filename` field is returned verbatim, with no
sanitization and no extension check. -/
theorem explicit_filename_verbatim (info : SoftwareInfo) (s : String)
    (hfn : info.filename = some s) (hne : s ≠ "") :
    generate_filename info = s := by
  simp [generate_filename, hfn, hne]

/-- Witness for C10 at a concrete record: an explicit filename with spaces,
a `*` and no extension is used unchanged. -/
theorem explicit_filename_verbatim_witness :
    generate_filename
        ⟨some "my installer *v2", some "App", some "http://x.com/a.exe",
          none, none⟩ =
      "my installer *v2" :=
  explicit_filename_verbatim
    ⟨some "my installer *v2", some "App", some "http://x.com/a.exe", none,
      none⟩
    "my installer *v2" rfl (by decide)
